import Mathlib

/-!
Verification of the Clusternet localizer (override reconciliation and merge
engine, `pkg/controllers/apps/feedinventory/../localizer.go`).  The Go source
is embedded shallowly: listers become explicit lists, the clientset and the
two injected callbacks become environment functions, and every handler is a
pure function from an environment and an object to an outcome record.
-/

namespace Clusternet

/-- An instant, as whole seconds since the Unix epoch (the only granularity the
localizer ever inspects). -/
structure KTime where
  unix : Nat
deriving DecidableEq

/-- Go `time.Time.Second()`: the second offset within the minute, in `[0, 59]`
(this is what `CreationTimestamp.Second()` returns in the sort comparators). -/
def KTime.second (t : KTime) : Nat := t.unix % 60

/-- One named patch step (`appsapi.OverrideConfig`).  Modelled from the spec:
the `appsapi` type definitions are not part of the provided sources. -/
structure OverrideConfig where
  name : String
  type : String
  value : String
deriving DecidableEq

/-- A resource coordinate (`appsapi.Feed`).  Modelled from the spec. -/
structure Feed where
  kind : String
  apiVersion : String
  ns : String
  name : String
deriving DecidableEq

/-- `chartKind.Kind` for `appsapi.SchemeGroupVersion.WithKind("HelmChart")`. -/
def chartKindStr : String := "HelmChart"

/-- `chartKind.Version`. -/
def chartVersionStr : String := "v1alpha1"

/-- `appsapi.ApplyNow`. -/
def applyNow : String := "ApplyNow"

/-- `appsapi.ApplyLater`. -/
def applyLater : String := "ApplyLater"

/-- `known.AppFinalizer`. -/
def appFinalizer : String := "apps.clusternet.io/finalizer"

/-- `appsapi.DescriptionHelmDeployer`. -/
def helmDeployer : String := "Helm"

/-- `appsapi.DescriptionGenericDeployer`. -/
def genericDeployer : String := "Generic"

/-- A cluster-scoped override declaration (`appsapi.Globalization`).  Modelled
from the spec (the type itself is generated API code outside the sources):
priority, policy, feed, ordered overrides, finalizers, timestamps, and the
index labels `{targetUID: targetKind}`. -/
structure Globalization where
  name : String
  labels : List (String × String)
  creationTimestamp : KTime
  deletionTimestamp : Option KTime
  finalizers : List String
  overridePolicy : String
  priority : Int
  feed : Feed
  overrides : List OverrideConfig
deriving DecidableEq

/-- A namespace-scoped override declaration (`appsapi.Localization`).
Modelled from the spec, as for `Globalization`. -/
structure Localization where
  ns : String
  name : String
  labels : List (String × String)
  creationTimestamp : KTime
  deletionTimestamp : Option KTime
  finalizers : List String
  overridePolicy : String
  priority : Int
  feed : Feed
  overrides : List OverrideConfig
deriving DecidableEq

/-- A chart target artifact: what the localizer reads from `chartLister`. -/
structure HelmChart where
  ns : String
  name : String
  uid : String
deriving DecidableEq

/-- A generic manifest target artifact, carrying the feed-identifying labels
that `ListManifestsBySelector` matches on, and its UID. -/
structure Manifest where
  uid : String
  feedKind : String
  feedApiVersion : String
  feedNs : String
  feedName : String
deriving DecidableEq

/-- Errors observable through the localizer's return values. -/
inductive Err where
  | notFound (resource : String) (name : String)
  | unmarshalFailure
  | opaque2 (msg : String)
deriving DecidableEq

/-- The error returned by `ApplyOverridesToDescription` as a whole: either the
`utilerrors.NewAggregate` of the per-entry errors, or the immediate
"unsupported deployer" error of the default branch. -/
inductive DescErr where
  | aggregate (errs : List Err)
  | unsupportedDeployer (deployer : String)
deriving DecidableEq

/-- The read-only environment of one localizer call: the synced lister
contents, and the injected callbacks / client outcomes as functions. -/
structure Env where
  charts : List HelmChart
  manifests : List Manifest
  globs : List Globalization
  locs : List Localization
  chartCallbackErr : HelmChart → Option Err
  manifestCallbackErr : Manifest → Option Err
  locUpdateErr : Localization → Option Err
  globUpdateErr : Globalization → Option Err
  applyOverridesFn : String → List OverrideConfig → Except Err String
  decodeObj : String → Except Err Feed

/-- Modelled from the spec: `utils.ListManifestsBySelector` (not in the
provided sources) lists the Manifests of the reserved namespace matching a
selector built from the full Feed (kind, apiVersion, namespace, name); the
Go nil slice for "no match" is the empty list here. -/
def ListManifestsBySelector (manifests : List Manifest) (feed : Feed) : List Manifest :=
  manifests.filter fun m =>
    decide (m.feedKind = feed.kind ∧ m.feedApiVersion = feed.apiVersion ∧
      m.feedNs = feed.ns ∧ m.feedName = feed.name)

/-- Modelled from the spec: `utils.RemoveString` (not in the provided sources)
removes a token from a finalizer list. -/
def RemoveString (l : List String) (s : String) : List String :=
  l.filter fun x => decide (x ≠ s)

/-- Label-set selector matching for `labels.SelectorFromSet {uid: kind}`: the
object's label map must map the key to exactly that value. -/
def hasLabel (labels : List (String × String)) (k v : String) : Bool :=
  labels.lookup k == some v

/-- `chartLister.HelmCharts(ns).Get(name)` over the indexed chart store. -/
def chartGet (charts : List HelmChart) (ns name : String) : Option HelmChart :=
  charts.find? fun c => decide (c.ns = ns ∧ c.name = name)

/-- Lines 315-332 of `getOverrides`: resolve the Feed to the target's UID. -/
def resolveTargetUID (env : Env) (feed : Feed) : Except Err String :=
  if feed.kind = chartKindStr then
    match chartGet env.charts feed.ns feed.name with
    | some chart => .ok chart.uid
    | none => .error (.notFound "helmcharts" feed.name)
  else
    match ListManifestsBySelector env.manifests feed with
    | m :: _ => .ok m.uid
    | [] => .error (.notFound feed.kind feed.name)

/-- The comparator handed to `sort.SliceStable` (lines 340-346 and 354-360):
strictly ascending priority, ties compared by `CreationTimestamp.Second()`. -/
def ovKeyLess (k1 k2 : Int × Nat) : Bool :=
  if k1.1 = k2.1 then decide (k1.2 < k2.2) else decide (k1.1 < k2.1)

/-- The sort key read by the comparator. -/
def Globalization.sortKey (g : Globalization) : Int × Nat :=
  (g.priority, g.creationTimestamp.second)

/-- The sort key read by the comparator. -/
def Localization.sortKey (l : Localization) : Int × Nat :=
  (l.priority, l.creationTimestamp.second)

/-- The total preorder induced by the strict comparator: `a` comes before or
with `b` exactly when `b` is not strictly less than `a`. -/
def keyLE {α : Type} (key : α → Int × Nat) (a b : α) : Prop :=
  ovKeyLess (key b) (key a) = false

instance {α : Type} (key : α → Int × Nat) : DecidableRel (keyLE key) :=
  fun _ _ => instDecidableEqBool _ _

/-- `sort.SliceStable` with the comparator above, modelled as the stable
insertion sort over the induced total preorder (the unique stable ordering
consistent with the strict comparator). -/
def sliceStable {α : Type} (key : α → Int × Nat) (l : List α) : List α :=
  l.insertionSort (keyLE key)

/-- The loop of lines 363-368: append each Globalization's overrides in
order, skipping declarations whose deletion timestamp is set. -/
def collectGlobOverrides : List Globalization → List OverrideConfig
  | [] => []
  | g :: rest =>
    if g.deletionTimestamp.isSome then collectGlobOverrides rest
    else g.overrides ++ collectGlobOverrides rest

/-- The loop of lines 369-374, for Localizations. -/
def collectLocOverrides : List Localization → List OverrideConfig
  | [] => []
  | l :: rest =>
    if l.deletionTimestamp.isSome then collectLocOverrides rest
    else l.overrides ++ collectLocOverrides rest

/-- `globLister.List` with the `{uid: kind}` selector. -/
def matchedGlobs (env : Env) (uid kind : String) : List Globalization :=
  env.globs.filter fun g => hasLabel g.labels uid kind

/-- `locLister.Localizations(ns).List` with the `{uid: kind}` selector. -/
def matchedLocs (env : Env) (ns uid kind : String) : List Localization :=
  (env.locs.filter fun l => decide (l.ns = ns)).filter fun l => hasLabel l.labels uid kind

/-- Lines 334-377 of `getOverrides`, after the UID has been resolved. -/
def overridesForUID (env : Env) (ns kind uid : String) : List OverrideConfig :=
  collectGlobOverrides (sliceStable Globalization.sortKey (matchedGlobs env uid kind)) ++
    collectLocOverrides (sliceStable Localization.sortKey (matchedLocs env ns uid kind))

/-- `(*Localizer).getOverrides` (lines 314-377). -/
def getOverrides (env : Env) (ns : String) (feed : Feed) : Except Err (List OverrideConfig) :=
  match resolveTargetUID env feed with
  | .error e => .error e
  | .ok uid => .ok (overridesForUID env ns feed.kind uid)

/-- Observable outcome of one reconcile handler call: the returned error, the
callback invocations, and the finalizer list persisted by `Update` (if any). -/
structure HandleOutcome where
  err : Option Err
  chartCb : Option HelmChart
  manifestCb : Option Manifest
  updated : Option (List String)
deriving DecidableEq

/-- Lines 185-197: the finalizer-removal epilogue of `handleLocalization`,
reached whenever the policy switch falls through. -/
def locFinalize (env : Env) (loc : Localization) (cbC : Option HelmChart)
    (cbM : Option Manifest) : HandleOutcome :=
  match loc.deletionTimestamp with
  | some _ =>
    match env.locUpdateErr loc with
    | some e => ⟨some e, cbC, cbM, none⟩
    | none => ⟨none, cbC, cbM, some (RemoveString loc.finalizers appFinalizer)⟩
  | none => ⟨none, cbC, cbM, none⟩

/-- `(*Localizer).handleLocalization` (lines 144-198). -/
def handleLocalization (env : Env) (loc : Localization) : HandleOutcome :=
  if loc.overridePolicy = applyNow then
    if loc.feed.kind = chartKindStr then
      match chartGet env.charts loc.feed.ns loc.feed.name with
      | none => locFinalize env loc none none
      | some chart =>
        match env.chartCallbackErr chart with
        | some e => ⟨some e, some chart, none, none⟩
        | none => locFinalize env loc (some chart) none
    else
      match ListManifestsBySelector env.manifests loc.feed with
      | [] => locFinalize env loc none none
      | m :: _ =>
        match env.manifestCallbackErr m with
        | some e => ⟨some e, none, some m, none⟩
        | none => locFinalize env loc none (some m)
  else if loc.overridePolicy = applyLater then
    locFinalize env loc none none
  else
    ⟨none, none, none, none⟩

/-- Lines 241-251: the finalizer-removal epilogue of `handleGlobalization`. -/
def globFinalize (env : Env) (glob : Globalization) (cbC : Option HelmChart)
    (cbM : Option Manifest) : HandleOutcome :=
  match glob.deletionTimestamp with
  | some _ =>
    match env.globUpdateErr glob with
    | some e => ⟨some e, cbC, cbM, none⟩
    | none => ⟨none, cbC, cbM, some (RemoveString glob.finalizers appFinalizer)⟩
  | none => ⟨none, cbC, cbM, none⟩

/-- `(*Localizer).handleGlobalization` (lines 200-253). -/
def handleGlobalization (env : Env) (glob : Globalization) : HandleOutcome :=
  if glob.overridePolicy = applyNow then
    if glob.feed.kind = chartKindStr then
      match chartGet env.charts glob.feed.ns glob.feed.name with
      | none => globFinalize env glob none none
      | some chart =>
        match env.chartCallbackErr chart with
        | some e => ⟨some e, some chart, none, none⟩
        | none => globFinalize env glob (some chart) none
    else
      match ListManifestsBySelector env.manifests glob.feed with
      | [] => globFinalize env glob none none
      | m :: _ =>
        match env.manifestCallbackErr m with
        | some e => ⟨some e, none, some m, none⟩
        | none => globFinalize env glob none (some m)
  else if glob.overridePolicy = applyLater then
    globFinalize env glob none none
  else
    ⟨none, none, none, none⟩

/-- The aggregate deployment descriptor (`appsapi.Description`), reduced to
the fields `ApplyOverridesToDescription` reads and writes; a `[][]byte` slot
that is Go-nil is `none`. -/
structure Description where
  ns : String
  deployer : String
  charts : List (String × String)
  raw : List (Option String)
deriving DecidableEq

/-- `utilerrors.NewAggregate`: nil for an empty error list. -/
def newAggregate (errs : List Err) : Option DescErr :=
  match errs with
  | [] => none
  | _ => some (.aggregate errs)

/-- The shared shape of both per-entry loops of `ApplyOverridesToDescription`:
walk the entries with the running index, record each failing entry's error and
continue, and write each successful entry's payload into its own slot. -/
def mutateLoop {α : Type} (entry : α → Except Err String) :
    List α → Nat → List (Option String) → List Err → List (Option String) × List Err
  | [], _, raw, errs => (raw, errs)
  | x :: rest, idx, raw, errs =>
    match entry x with
    | .error e => mutateLoop entry rest (idx + 1) raw (errs ++ [e])
    | .ok v => mutateLoop entry rest (idx + 1) (raw.set idx (some v)) errs

/-- The chart Feed built at lines 262-267 from one chart reference. -/
def mkChartFeed (ref : String × String) : Feed :=
  { kind := chartKindStr, apiVersion := chartVersionStr, ns := ref.1, name := ref.2 }

/-- One Helm-mode entry (lines 262-279): resolve overrides for the chart
reference and apply them to the explicit whitespace base document. -/
def helmEntry (env : Env) (ns : String) (ref : String × String) : Except Err String :=
  match getOverrides env ns (mkChartFeed ref) with
  | .error e => .error e
  | .ok ovs => env.applyOverridesFn " " ovs

/-- One generic-mode entry (lines 283-306): unmarshal the raw manifest, build
its Feed from the embedded coordinates, resolve overrides and patch the
manifest bytes themselves. -/
def genericEntry (env : Env) (ns : String) (rawObject : Option String) : Except Err String :=
  match rawObject with
  | none => .error .unmarshalFailure
  | some s =>
    match env.decodeObj s with
    | .error e => .error e
    | .ok feed =>
      match getOverrides env ns feed with
      | .error e => .error e
      | .ok ovs => env.applyOverridesFn s ovs

/-- `(*Localizer).ApplyOverridesToDescription` (lines 255-312): the returned
pair is the mutated Description and the Go return value. -/
def ApplyOverridesToDescription (env : Env) (desc : Description) :
    Description × Option DescErr :=
  if desc.deployer = helmDeployer then
    ({ desc with raw := (mutateLoop (helmEntry env desc.ns) desc.charts 0
        (List.replicate desc.charts.length none) []).1 },
      newAggregate (mutateLoop (helmEntry env desc.ns) desc.charts 0
        (List.replicate desc.charts.length none) []).2)
  else if desc.deployer = genericDeployer then
    ({ desc with raw := (mutateLoop (genericEntry env desc.ns) desc.raw 0 desc.raw []).1 },
      newAggregate (mutateLoop (genericEntry env desc.ns) desc.raw 0 desc.raw []).2)
  else
    (desc, some (.unsupportedDeployer desc.deployer))

instance keyLE_isTotal {α : Type} (key : α → Int × Nat) : IsTotal α (keyLE key) where
  total a b := by
    unfold keyLE ovKeyLess
    by_cases hp : (key b).1 = (key a).1
    · rw [if_pos hp, if_pos hp.symm]
      simp only [decide_eq_false_iff_not]
      omega
    · rw [if_neg hp, if_neg (fun hh => hp hh.symm)]
      simp only [decide_eq_false_iff_not]
      omega

instance keyLE_isTrans {α : Type} (key : α → Int × Nat) : IsTrans α (keyLE key) where
  trans a b c hab hbc := by
    unfold keyLE ovKeyLess at hab hbc ⊢
    by_cases h1 : (key b).1 = (key a).1
    · rw [if_pos h1] at hab
      by_cases h2 : (key c).1 = (key b).1
      · rw [if_pos h2] at hbc
        rw [if_pos (h2.trans h1)]
        simp only [decide_eq_false_iff_not] at hab hbc ⊢
        omega
      · rw [if_neg h2] at hbc
        rw [if_neg (fun hh => h2 (hh.trans h1.symm))]
        simp only [decide_eq_false_iff_not] at hab hbc ⊢
        omega
    · rw [if_neg h1] at hab
      by_cases h2 : (key c).1 = (key b).1
      · rw [if_pos h2] at hbc
        rw [if_neg (fun hh => h1 (h2.symm.trans hh))]
        simp only [decide_eq_false_iff_not] at hab ⊢
        omega
      · rw [if_neg h2] at hbc
        by_cases h3 : (key c).1 = (key a).1
        · rw [if_pos h3]
          simp only [decide_eq_false_iff_not] at hab hbc ⊢
          omega
        · rw [if_neg h3]
          simp only [decide_eq_false_iff_not] at hab hbc ⊢
          omega

/-! Spec-side vocabulary for the ordering claims. -/

/-- Flattening of spec 4.2 step 5: each declaration's OverrideConfig list in
declaration order, each list in its authored order. -/
def flattenOverrides {α : Type} (ov : α → List OverrideConfig) : List α → List OverrideConfig
  | [] => []
  | x :: rest => ov x ++ flattenOverrides ov rest

/-- The matching Globalizations that are not pending deletion. -/
def activeGlobs (env : Env) (uid kind : String) : List Globalization :=
  (matchedGlobs env uid kind).filter fun g => g.deletionTimestamp.isNone

/-- The matching Localizations of the namespace that are not pending deletion. -/
def activeLocs (env : Env) (ns uid kind : String) : List Localization :=
  (matchedLocs env ns uid kind).filter fun l => l.deletionTimestamp.isNone

/-! Characterisation of the per-entry mutation loops. -/

/-- The error component of a per-entry result. -/
def errPart {β : Type} : Except Err β → Option Err
  | .error e => some e
  | .ok _ => none

/-- The slot values produced by one full pass: each successful entry's payload
in its own slot, each failed entry's slot keeping the prior slot value. -/
def combine {α : Type} (entry : α → Except Err String) :
    List α → List (Option String) → List (Option String)
  | [], raw => raw
  | _ :: _, [] => []
  | x :: rest, o :: raw =>
    (match entry x with | .ok v => some v | .error _ => o) :: combine entry rest raw

/-- The policy switch of `handleLocalization` falls through to the epilogue
(rather than returning early): the policy is `ApplyLater`, or it is `ApplyNow`
and the resolution/callback steps produce no error. -/
def locApplyCompletes (env : Env) (loc : Localization) : Bool :=
  if loc.overridePolicy = applyNow then
    if loc.feed.kind = chartKindStr then
      match chartGet env.charts loc.feed.ns loc.feed.name with
      | none => true
      | some c => env.chartCallbackErr c == none
    else
      match ListManifestsBySelector env.manifests loc.feed with
      | [] => true
      | m :: _ => env.manifestCallbackErr m == none
  else decide (loc.overridePolicy = applyLater)

/-- The policy switch of `handleGlobalization` falls through to the epilogue. -/
def globApplyCompletes (env : Env) (glob : Globalization) : Bool :=
  if glob.overridePolicy = applyNow then
    if glob.feed.kind = chartKindStr then
      match chartGet env.charts glob.feed.ns glob.feed.name with
      | none => true
      | some c => env.chartCallbackErr c == none
    else
      match ListManifestsBySelector env.manifests glob.feed with
      | [] => true
      | m :: _ => env.manifestCallbackErr m == none
  else decide (glob.overridePolicy = applyLater)

/-! Concrete fixtures for the closed instantiations below. -/

/-- A chart in the store. -/
def chartW : HelmChart := { ns := "default", name := "mysql", uid := "uid-1" }

/-- A Feed addressing `chartW`. -/
def feedW : Feed :=
  { kind := "HelmChart", apiVersion := "v1alpha1", ns := "default", name := "mysql" }

/-- A sample override step. -/
def ovA : OverrideConfig := { name := "a", type := "Helm", value := "va" }

/-- A sample override step. -/
def ovB : OverrideConfig := { name := "b", type := "Helm", value := "vb" }

/-- A sample override step. -/
def ovC : OverrideConfig := { name := "c", type := "Helm", value := "vc" }

/-- Baseline environment: one chart, no declarations, all callbacks and
updates succeeding, identity patching, undecodable raw manifests. -/
def envBase : Env :=
  { charts := [chartW], manifests := [], globs := [], locs := [],
    chartCallbackErr := fun _ => none, manifestCallbackErr := fun _ => none,
    locUpdateErr := fun _ => none, globUpdateErr := fun _ => none,
    applyOverridesFn := fun s _ => .ok s,
    decodeObj := fun _ => .error .unmarshalFailure }

/-- A matching Globalization of priority 300. -/
def g300 : Globalization :=
  { name := "g300", labels := [("uid-1", "HelmChart")], creationTimestamp := ⟨10⟩,
    deletionTimestamp := none, finalizers := [], overridePolicy := "ApplyLater",
    priority := 300, feed := feedW, overrides := [ovA] }

/-- A matching Globalization of priority 500. -/
def g500 : Globalization :=
  { g300 with
    name := "g500", creationTimestamp := ⟨20⟩, priority := 500, overrides := [ovB] }

/-- A matching Localization of priority 100 in namespace `cns`. -/
def l100 : Localization :=
  { ns := "cns", name := "l100", labels := [("uid-1", "HelmChart")],
    creationTimestamp := ⟨5⟩, deletionTimestamp := none, finalizers := [],
    overridePolicy := "ApplyLater", priority := 100, feed := feedW,
    overrides := [ovC] }

/-- Environment with two Globalizations (listed out of priority order) and one
Localization. -/
def env1 : Env := { envBase with globs := [g500, g300], locs := [l100] }

/-- Created at epoch second 30 (second-of-minute 30). -/
def gEarly : Globalization :=
  { g300 with
    name := "g-early", creationTimestamp := ⟨30⟩, priority := 5, overrides := [ovA] }

/-- Created at epoch second 70 (second-of-minute 10): later in time, but with
a smaller second-within-minute than `gEarly`. -/
def gLate : Globalization :=
  { g300 with
    name := "g-late", creationTimestamp := ⟨70⟩, priority := 5, overrides := [ovB] }

/-- Environment holding the two equal-priority Globalizations. -/
def env2 : Env := { envBase with globs := [gEarly, gLate] }

/-- A pending-deletion Localization with an unsupported override policy. -/
def locBad : Localization :=
  { l100 with
    name := "loc-bad"
    deletionTimestamp := some ⟨100⟩
    finalizers := [appFinalizer, "other-finalizer"]
    overridePolicy := "NoSuchPolicy" }

/-- A pending-deletion Globalization with an unsupported override policy. -/
def globBad : Globalization :=
  { g300 with
    name := "glob-bad"
    deletionTimestamp := some ⟨100⟩
    finalizers := [appFinalizer]
    overridePolicy := "NoSuchPolicy" }

/-- A pending-deletion ApplyLater Localization. -/
def loc3 : Localization := { locBad with name := "loc3", overridePolicy := "ApplyLater" }

/-- A pending-deletion ApplyLater Globalization. -/
def glob3 : Globalization := { globBad with name := "glob3", overridePolicy := "ApplyLater" }

/-- A matching Globalization pending deletion. -/
def gDel : Globalization :=
  { g300 with
    name := "g-del", deletionTimestamp := some ⟨50⟩, priority := 400, overrides := [ovB] }

/-- A matching Localization pending deletion. -/
def lDel : Localization :=
  { l100 with
    name := "l-del", deletionTimestamp := some ⟨60⟩, priority := 200, overrides := [ovB] }

/-- Environment holding deleted and live declarations side by side. -/
def env4 : Env := { envBase with globs := [gDel, g300], locs := [lDel, l100] }

/-- A Helm-mode Description with three chart references whose second entry
cannot be resolved. -/
def desc5 : Description :=
  { ns := "cns", deployer := "Helm",
    charts := [("default", "mysql"), ("default", "missing"), ("default", "mysql")],
    raw := [] }

/-- A manifest in the reserved namespace. -/
def m1 : Manifest :=
  { uid := "uid-m1", feedKind := "Deployment", feedApiVersion := "apps/v1",
    feedNs := "foo", feedName := "my-nginx" }

/-- A Feed matching `m1`. -/
def feedD : Feed :=
  { kind := "Deployment", apiVersion := "apps/v1", ns := "foo", name := "my-nginx" }

/-- A Feed matching no manifest. -/
def feedE : Feed := { feedD with name := "absent" }

/-- Environment with `m1` as the only manifest. -/
def env6 : Env := { envBase with manifests := [m1] }

/-- An ApplyNow Localization whose chart target does not exist. -/
def loc7 : Localization :=
  { l100 with
    name := "loc7"
    overridePolicy := "ApplyNow"
    feed := { feedW with name := "missing" } }

/-- An ApplyNow Globalization whose manifest selector matches nothing. -/
def glob7 : Globalization :=
  { g300 with
    name := "glob7", overridePolicy := "ApplyNow", feed := feedE }

/-- A Description with an unsupported deployer mode. -/
def desc9 : Description :=
  { ns := "cns", deployer := "InPlace", charts := [], raw := [some "x"] }

/-- A Helm-mode Description with one unresolvable chart reference. -/
def desc10h : Description :=
  { ns := "cns", deployer := "Helm", charts := [("default", "missing")], raw := [] }

/-- A generic-mode Description with one undecodable raw entry. -/
def desc10g : Description :=
  { ns := "cns", deployer := "Generic", charts := [], raw := [some "junk"] }

/-! Facts about the comparator and the stable sort. -/

theorem keyLE_priority {α : Type} {key : α → Int × Nat} {a b : α}
    (h : keyLE key a b) : (key a).1 ≤ (key b).1 := by
  unfold keyLE ovKeyLess at h
  by_cases hp : (key b).1 = (key a).1
  · omega
  · rw [if_neg hp] at h
    simp only [decide_eq_false_iff_not] at h
    omega

section FilterSort

variable {α : Type} (r : α → α → Prop) [DecidableRel r]

theorem filter_orderedInsert_of_neg (p : α → Bool) (a : α) (hpa : p a = false) :
    ∀ s : List α, (s.orderedInsert r a).filter p = s.filter p
  | [] => by simp [List.orderedInsert, hpa]
  | b :: s => by
    by_cases h : r a b
    · simp [List.orderedInsert, h, List.filter_cons, hpa]
    · simp only [List.orderedInsert, if_neg h, List.filter_cons]
      rw [filter_orderedInsert_of_neg p a hpa s]

theorem filter_orderedInsert_of_pos [IsTrans α r] (p : α → Bool) (a : α)
    (hpa : p a = true) :
    ∀ s : List α, s.Sorted r →
      (s.orderedInsert r a).filter p = (s.filter p).orderedInsert r a
  | [], _ => by simp [List.orderedInsert, hpa]
  | b :: s, hs => by
    have hs' : s.Sorted r := (List.sorted_cons.mp hs).2
    have hbs : ∀ c ∈ s, r b c := (List.sorted_cons.mp hs).1
    by_cases h : r a b
    · by_cases hpb : p b = true
      · simp [List.orderedInsert, h, List.filter_cons, hpa, hpb]
      · have hpb' : p b = false := by simpa using hpb
        have hLHS : ((b :: s).orderedInsert r a).filter p = a :: s.filter p := by
          simp [List.orderedInsert, h, List.filter_cons, hpa, hpb']
        have hRHS : (b :: s).filter p = s.filter p := by
          simp [List.filter_cons, hpb']
        rw [hLHS, hRHS]
        cases hfs : s.filter p with
        | nil => simp [List.orderedInsert]
        | cons c rest =>
          have hcmem : c ∈ s.filter p := by
            rw [hfs]
            exact List.mem_cons_self c rest
          have hc : c ∈ s := List.mem_of_mem_filter hcmem
          have hac : r a c := IsTrans.trans _ _ _ h (hbs c hc)
          simp [List.orderedInsert, hac]
    · by_cases hpb : p b = true
      · simp only [List.orderedInsert, if_neg h, List.filter_cons, hpb, if_true]
        rw [filter_orderedInsert_of_pos p a hpa s hs']
      · have hpb' : p b = false := by simpa using hpb
        simp only [List.orderedInsert, if_neg h, List.filter_cons, hpb',
          Bool.false_eq_true, if_false]
        exact filter_orderedInsert_of_pos p a hpa s hs'

theorem filter_insertionSort [IsTotal α r] [IsTrans α r] (p : α → Bool) :
    ∀ l : List α, (l.insertionSort r).filter p = (l.filter p).insertionSort r
  | [] => rfl
  | a :: l => by
    simp only [List.insertionSort, List.filter_cons]
    by_cases hpa : p a = true
    · rw [if_pos hpa,
        filter_orderedInsert_of_pos r p a hpa _ (List.sorted_insertionSort r l),
        filter_insertionSort p l]
      simp only [List.insertionSort]
    · have hpa' : p a = false := by simpa using hpa
      rw [if_neg hpa, filter_orderedInsert_of_neg r p a hpa' _,
        filter_insertionSort p l]

end FilterSort


theorem collectGlobOverrides_eq : ∀ l : List Globalization,
    collectGlobOverrides l =
      flattenOverrides (fun g => g.overrides) (l.filter fun g => g.deletionTimestamp.isNone)
  | [] => rfl
  | g :: rest => by
    cases hd : g.deletionTimestamp with
    | none =>
      simp [collectGlobOverrides, hd, List.filter_cons, flattenOverrides,
        collectGlobOverrides_eq rest]
    | some t =>
      simp [collectGlobOverrides, hd, List.filter_cons, collectGlobOverrides_eq rest]

theorem collectLocOverrides_eq : ∀ l : List Localization,
    collectLocOverrides l =
      flattenOverrides (fun x => x.overrides) (l.filter fun x => x.deletionTimestamp.isNone)
  | [] => rfl
  | x :: rest => by
    cases hd : x.deletionTimestamp with
    | none =>
      simp [collectLocOverrides, hd, List.filter_cons, flattenOverrides,
        collectLocOverrides_eq rest]
    | some t =>
      simp [collectLocOverrides, hd, List.filter_cons, collectLocOverrides_eq rest]

/-- The stable sort is a permutation of its input. -/
theorem sliceStable_perm {α : Type} (key : α → Int × Nat) (l : List α) :
    (sliceStable key l).Perm l :=
  List.perm_insertionSort _ l

/-- The stable sort is ascending in priority (the first key component). -/
theorem sliceStable_sorted_priority {α : Type} (key : α → Int × Nat) (l : List α) :
    (sliceStable key l).Sorted fun a b => (key a).1 ≤ (key b).1 :=
  (List.sorted_insertionSort (keyLE key) l).imp fun h => keyLE_priority h

/-- Filtering after the stable sort is the same as sorting the filtered list:
the deletion filter of `getOverrides` commutes with `sort.SliceStable`. -/
theorem sliceStable_filter {α : Type} (key : α → Int × Nat) (p : α → Bool) (l : List α) :
    (sliceStable key l).filter p = sliceStable key (l.filter p) :=
  filter_insertionSort (keyLE key) p l

/-- The post-resolution body of `getOverrides`, rephrased: sorted active
Globalizations flattened, then sorted active Localizations flattened. -/
theorem overridesForUID_eq (env : Env) (ns kind uid : String) :
    overridesForUID env ns kind uid =
      flattenOverrides (fun g => g.overrides)
        (sliceStable Globalization.sortKey (activeGlobs env uid kind)) ++
      flattenOverrides (fun l => l.overrides)
        (sliceStable Localization.sortKey (activeLocs env ns uid kind)) := by
  unfold overridesForUID activeGlobs activeLocs
  rw [collectGlobOverrides_eq, collectLocOverrides_eq, sliceStable_filter,
    sliceStable_filter]


theorem combine_length {α : Type} (entry : α → Except Err String) :
    ∀ (xs : List α) (raw : List (Option String)),
      (combine entry xs raw).length = raw.length
  | [], _ => rfl
  | _ :: _, [] => rfl
  | x :: rest, o :: raw => by
    simp [combine, combine_length entry rest raw]

theorem set_append_len {γ : Type} (x : γ) : ∀ (l₁ : List γ) (a : γ) (l₂ : List γ),
    (l₁ ++ a :: l₂).set l₁.length x = l₁ ++ x :: l₂
  | [], _, _ => rfl
  | b :: l₁, a, l₂ => by
    simp [List.set, set_append_len x l₁ a l₂]

theorem mutateLoop_spec {α : Type} (entry : α → Except Err String) :
    ∀ (xs : List α) (raw₀ raw₁ : List (Option String)) (errs : List Err),
      xs.length ≤ raw₁.length →
      mutateLoop entry xs raw₀.length (raw₀ ++ raw₁) errs =
        (raw₀ ++ combine entry xs raw₁, errs ++ xs.filterMap fun x => errPart (entry x))
  | [], raw₀, raw₁, errs, _ => by simp [mutateLoop, combine]
  | x :: rest, raw₀, raw₁, errs, hlen => by
    cases raw₁ with
    | nil => simp at hlen
    | cons o raw₁ =>
      have hlen' : rest.length ≤ raw₁.length := by simpa using hlen
      cases he : entry x with
      | error e =>
        have hcg : combine entry (x :: rest) (o :: raw₁) = o :: combine entry rest raw₁ := by
          simp [combine, he]
        have hfm : ((x :: rest).filterMap fun y => errPart (entry y)) =
            e :: rest.filterMap fun y => errPart (entry y) := by
          simp [List.filterMap_cons, he, errPart]
        have h1 : raw₀ ++ o :: raw₁ = (raw₀ ++ [o]) ++ raw₁ := by simp
        have h2 : raw₀.length + 1 = (raw₀ ++ [o]).length := by simp
        rw [hcg, hfm]
        simp only [mutateLoop, he]
        rw [h1, h2, mutateLoop_spec entry rest (raw₀ ++ [o]) raw₁ (errs ++ [e]) hlen']
        simp
      | ok v =>
        have hcg : combine entry (x :: rest) (o :: raw₁) =
            some v :: combine entry rest raw₁ := by
          simp [combine, he]
        have hfm : ((x :: rest).filterMap fun y => errPart (entry y)) =
            rest.filterMap fun y => errPart (entry y) := by
          simp [List.filterMap_cons, he, errPart]
        have h1 : (raw₀ ++ o :: raw₁).set raw₀.length (some v) =
            (raw₀ ++ [some v]) ++ raw₁ := by
          rw [set_append_len]
          simp
        have h2 : raw₀.length + 1 = (raw₀ ++ [some v]).length := by simp
        rw [hcg, hfm]
        simp only [mutateLoop, he]
        rw [h1, h2, mutateLoop_spec entry rest (raw₀ ++ [some v]) raw₁ errs hlen']
        simp

theorem mutateLoop_zero {α : Type} (entry : α → Except Err String) (xs : List α)
    (raw : List (Option String)) (h : xs.length ≤ raw.length) :
    mutateLoop entry xs 0 raw [] =
      (combine entry xs raw, xs.filterMap fun x => errPart (entry x)) := by
  have step := mutateLoop_spec entry xs [] raw [] h
  simpa using step

theorem combine_replicate {α : Type} (entry : α → Except Err String) :
    ∀ xs : List α,
      combine entry xs (List.replicate xs.length none) =
        xs.map fun x => (entry x).toOption
  | [] => rfl
  | x :: rest => by
    rw [List.length_cons, List.replicate_succ]
    cases he : entry x with
    | ok v =>
      simp [combine, he, Except.toOption, combine_replicate entry rest]
    | error e =>
      simp [combine, he, Except.toOption, combine_replicate entry rest]

theorem combine_self_get (entry : Option String → Except Err String) :
    ∀ (xs : List (Option String)) (j : Nat) (x : Option String), xs[j]? = some x →
      (combine entry xs xs)[j]? =
        some (match entry x with | .ok v => some v | .error _ => x)
  | [], j, x, h => by simp at h
  | o :: rest, 0, x, h => by
    have hx : o = x := by simpa using h
    rw [← hx]
    cases he : entry o <;> simp [combine, he]
  | o :: rest, j + 1, x, h => by
    simp only [List.getElem?_cons_succ] at h
    have step := combine_self_get entry rest j x h
    have hcg : combine entry (o :: rest) (o :: rest) =
        (match entry o with | .ok v => some v | .error _ => o) :: combine entry rest rest :=
      rfl
    rw [hcg, List.getElem?_cons_succ]
    exact step

/-- Helm mode, solved: one output slot per chart reference, holding the
successful payload or Go-nil, and the aggregated per-entry errors. -/
theorem ApplyOverridesToDescription_helm (env : Env) (desc : Description)
    (h : desc.deployer = helmDeployer) :
    ApplyOverridesToDescription env desc =
      ({ desc with raw := desc.charts.map fun ref => (helmEntry env desc.ns ref).toOption },
        newAggregate (desc.charts.filterMap fun ref => errPart (helmEntry env desc.ns ref))) := by
  unfold ApplyOverridesToDescription
  rw [if_pos h, mutateLoop_zero _ _ _ (by simp), combine_replicate]

/-- Generic mode, solved: each slot holds the patched payload on success and
its prior value on failure, and the aggregated per-entry errors. -/
theorem ApplyOverridesToDescription_generic (env : Env) (desc : Description)
    (h : desc.deployer = genericDeployer) :
    ApplyOverridesToDescription env desc =
      ({ desc with raw := combine (genericEntry env desc.ns) desc.raw desc.raw },
        newAggregate (desc.raw.filterMap fun x => errPart (genericEntry env desc.ns x))) := by
  have hne : desc.deployer ≠ helmDeployer := by
    rw [h]
    decide
  unfold ApplyOverridesToDescription
  rw [if_neg hne, if_pos h, mutateLoop_zero _ _ _ (le_refl _)]

/-! Reconciliation handler helper facts. -/


theorem applyLater_ne_applyNow : applyLater ≠ applyNow := by decide

theorem handleLoc_removes_finalizer (env : Env) (loc : Localization) {t : KTime}
    (ht : loc.deletionTimestamp = some t)
    (hc : locApplyCompletes env loc = true)
    (hu : env.locUpdateErr loc = none) :
    (handleLocalization env loc).updated =
        some (RemoveString loc.finalizers appFinalizer) ∧
      (handleLocalization env loc).err = none := by
  by_cases hnow : loc.overridePolicy = applyNow
  · by_cases hck : loc.feed.kind = chartKindStr
    · cases hcg : chartGet env.charts loc.feed.ns loc.feed.name with
      | none => simp [handleLocalization, locFinalize, hnow, hck, hcg, ht, hu]
      | some c =>
        have hcb : env.chartCallbackErr c = none := by
          unfold locApplyCompletes at hc
          rw [if_pos hnow, if_pos hck, hcg] at hc
          simpa using hc
        simp [handleLocalization, locFinalize, hnow, hck, hcg, hcb, ht, hu]
    · cases hml : ListManifestsBySelector env.manifests loc.feed with
      | nil => simp [handleLocalization, locFinalize, hnow, hck, hml, ht, hu]
      | cons m ms =>
        have hcb : env.manifestCallbackErr m = none := by
          unfold locApplyCompletes at hc
          rw [if_pos hnow, if_neg hck, hml] at hc
          simpa using hc
        simp [handleLocalization, locFinalize, hnow, hck, hml, hcb, ht, hu]
  · have hlater : loc.overridePolicy = applyLater := by
      unfold locApplyCompletes at hc
      rw [if_neg hnow] at hc
      simpa using hc
    simp [handleLocalization, locFinalize, hnow, hlater, ht, hu, applyLater_ne_applyNow]

theorem handleGlob_removes_finalizer (env : Env) (glob : Globalization) {t : KTime}
    (ht : glob.deletionTimestamp = some t)
    (hc : globApplyCompletes env glob = true)
    (hu : env.globUpdateErr glob = none) :
    (handleGlobalization env glob).updated =
        some (RemoveString glob.finalizers appFinalizer) ∧
      (handleGlobalization env glob).err = none := by
  by_cases hnow : glob.overridePolicy = applyNow
  · by_cases hck : glob.feed.kind = chartKindStr
    · cases hcg : chartGet env.charts glob.feed.ns glob.feed.name with
      | none => simp [handleGlobalization, globFinalize, hnow, hck, hcg, ht, hu]
      | some c =>
        have hcb : env.chartCallbackErr c = none := by
          unfold globApplyCompletes at hc
          rw [if_pos hnow, if_pos hck, hcg] at hc
          simpa using hc
        simp [handleGlobalization, globFinalize, hnow, hck, hcg, hcb, ht, hu]
    · cases hml : ListManifestsBySelector env.manifests glob.feed with
      | nil => simp [handleGlobalization, globFinalize, hnow, hck, hml, ht, hu]
      | cons m ms =>
        have hcb : env.manifestCallbackErr m = none := by
          unfold globApplyCompletes at hc
          rw [if_pos hnow, if_neg hck, hml] at hc
          simpa using hc
        simp [handleGlobalization, globFinalize, hnow, hck, hml, hcb, ht, hu]
  · have hlater : glob.overridePolicy = applyLater := by
      unfold globApplyCompletes at hc
      rw [if_neg hnow] at hc
      simpa using hc
    simp [handleGlobalization, globFinalize, hnow, hlater, ht, hu, applyLater_ne_applyNow]

theorem handleLoc_notFound (env : Env) (loc : Localization)
    (hnow : loc.overridePolicy = applyNow)
    (hnf : (loc.feed.kind = chartKindStr ∧
        chartGet env.charts loc.feed.ns loc.feed.name = none) ∨
      (loc.feed.kind ≠ chartKindStr ∧ ListManifestsBySelector env.manifests loc.feed = []))
    (hu : env.locUpdateErr loc = none) :
    (handleLocalization env loc).err = none ∧
      (handleLocalization env loc).chartCb = none ∧
      (handleLocalization env loc).manifestCb = none := by
  rcases hnf with ⟨hck, hcg⟩ | ⟨hck, hml⟩
  · cases ht : loc.deletionTimestamp <;>
      simp [handleLocalization, locFinalize, hnow, hck, hcg, ht, hu]
  · cases ht : loc.deletionTimestamp <;>
      simp [handleLocalization, locFinalize, hnow, hck, hml, ht, hu]

theorem handleGlob_notFound (env : Env) (glob : Globalization)
    (hnow : glob.overridePolicy = applyNow)
    (hnf : (glob.feed.kind = chartKindStr ∧
        chartGet env.charts glob.feed.ns glob.feed.name = none) ∨
      (glob.feed.kind ≠ chartKindStr ∧
        ListManifestsBySelector env.manifests glob.feed = []))
    (hu : env.globUpdateErr glob = none) :
    (handleGlobalization env glob).err = none ∧
      (handleGlobalization env glob).chartCb = none ∧
      (handleGlobalization env glob).manifestCb = none := by
  rcases hnf with ⟨hck, hcg⟩ | ⟨hck, hml⟩
  · cases ht : glob.deletionTimestamp <;>
      simp [handleGlobalization, globFinalize, hnow, hck, hcg, ht, hu]
  · cases ht : glob.deletionTimestamp <;>
      simp [handleGlobalization, globFinalize, hnow, hck, hml, ht, hu]

theorem filter_swap {γ : Type} (p q : γ → Bool) :
    ∀ l : List γ, (l.filter p).filter q = (l.filter q).filter p
  | [] => rfl
  | x :: l => by
    by_cases hp : p x = true <;> by_cases hq : q x = true <;>
      simp [List.filter_cons, hp, hq, filter_swap p q l]

theorem filter_idem {γ : Type} (p : γ → Bool) :
    ∀ l : List γ, (l.filter p).filter p = l.filter p
  | [] => rfl
  | x :: l => by
    by_cases hp : p x = true <;> simp [List.filter_cons, hp, filter_idem p l]

/-! The claims. -/

/-- C1: for every resolved target and consuming namespace, the OverrideConfig
sequence returned by `getOverrides` equals the flattened overrides of the
matching (non-pending-deletion) Globalizations sorted ascending by priority,
concatenated with the flattened overrides of the matching Localizations of
that namespace sorted ascending by priority; the sort is a permutation of each
matching set that is pairwise ascending in priority, and `flattenOverrides`
preserves each declaration's internal OverrideConfig order by construction. -/
theorem getOverrides_sorted_concat (env : Env) (ns : String) (feed : Feed)
    (uid : String) (hres : resolveTargetUID env feed = .ok uid) :
    getOverrides env ns feed = .ok
        (flattenOverrides (fun g => g.overrides)
            (sliceStable Globalization.sortKey (activeGlobs env uid feed.kind)) ++
          flattenOverrides (fun l => l.overrides)
            (sliceStable Localization.sortKey (activeLocs env ns uid feed.kind))) ∧
      (sliceStable Globalization.sortKey (activeGlobs env uid feed.kind)).Perm
        (activeGlobs env uid feed.kind) ∧
      (sliceStable Globalization.sortKey (activeGlobs env uid feed.kind)).Sorted
        (fun a b => a.priority ≤ b.priority) ∧
      (sliceStable Localization.sortKey (activeLocs env ns uid feed.kind)).Perm
        (activeLocs env ns uid feed.kind) ∧
      (sliceStable Localization.sortKey (activeLocs env ns uid feed.kind)).Sorted
        (fun a b => a.priority ≤ b.priority) := by
  refine ⟨?_, ?_, ?_, ?_, ?_⟩
  · simp only [getOverrides, hres]
    rw [overridesForUID_eq]
  · exact sliceStable_perm Globalization.sortKey _
  · exact sliceStable_sorted_priority Globalization.sortKey _
  · exact sliceStable_perm Localization.sortKey _
  · exact sliceStable_sorted_priority Localization.sortKey _

/-- Closed instantiation of the C1 theorem on `env1`. -/
theorem getOverrides_sorted_concat_inst :
    getOverrides env1 "cns" feedW = .ok
        (flattenOverrides (fun g => g.overrides)
            (sliceStable Globalization.sortKey (activeGlobs env1 "uid-1" feedW.kind)) ++
          flattenOverrides (fun l => l.overrides)
            (sliceStable Localization.sortKey (activeLocs env1 "cns" "uid-1" feedW.kind))) ∧
      (sliceStable Globalization.sortKey (activeGlobs env1 "uid-1" feedW.kind)).Perm
        (activeGlobs env1 "uid-1" feedW.kind) ∧
      (sliceStable Globalization.sortKey (activeGlobs env1 "uid-1" feedW.kind)).Sorted
        (fun a b => a.priority ≤ b.priority) ∧
      (sliceStable Localization.sortKey (activeLocs env1 "cns" "uid-1" feedW.kind)).Perm
        (activeLocs env1 "cns" "uid-1" feedW.kind) ∧
      (sliceStable Localization.sortKey (activeLocs env1 "cns" "uid-1" feedW.kind)).Sorted
        (fun a b => a.priority ≤ b.priority) :=
  getOverrides_sorted_concat env1 "cns" feedW "uid-1" rfl

/-- C2 is refuted by the code: with equal priorities the comparator compares
`CreationTimestamp.Second()` — the second offset within the minute — not the
creation instants.  `gEarly` is created at epoch second 30 and `gLate` at
epoch second 70, so `gEarly` is the earlier-created declaration; but their
seconds-within-minute are 30 and 10, so the computed order puts `gLate`'s
override first, contradicting "earlier-created first". -/
theorem getOverrides_tiebreak_second_of_minute :
    gEarly.priority = gLate.priority ∧
      gEarly.creationTimestamp.unix < gLate.creationTimestamp.unix ∧
      env2.globs = [gEarly, gLate] ∧
      getOverrides env2 "cns" feedW = .ok [ovB, ovA] := by
  refine ⟨rfl, by decide, rfl, ?_⟩
  rfl

/-- C3 as stated is false: with an unsupported overridePolicy, the handler
returns before the finalizer epilogue, so a pending-deletion object keeps its
finalizer set and no update is persisted, for both declaration kinds. -/
theorem handle_unsupported_policy_keeps_finalizer :
    locBad.deletionTimestamp.isSome = true ∧
      handleLocalization envBase locBad =
        { err := none, chartCb := none, manifestCb := none, updated := none } ∧
      globBad.deletionTimestamp.isSome = true ∧
      handleGlobalization envBase globBad =
        { err := none, chartCb := none, manifestCb := none, updated := none } := by
  exact ⟨rfl, rfl, rfl, rfl⟩

/-- C3 (amended): for every Localization or Globalization being reconciled
whose deletionTimestamp is non-nil, the handler removes the engine's finalizer
from the object's finalizer set and persists the update, provided the policy
switch falls through to the epilogue (overridePolicy is ApplyLater, or
ApplyNow with no error from its lookup/callback steps) and the API update
succeeds; with an unsupported overridePolicy the handler instead returns early
without touching the finalizers. -/
theorem handle_deletion_removes_finalizer (env : Env) (loc : Localization)
    (glob : Globalization) (t u : KTime)
    (hlt : loc.deletionTimestamp = some t)
    (hlc : locApplyCompletes env loc = true)
    (hlu : env.locUpdateErr loc = none)
    (hgt : glob.deletionTimestamp = some u)
    (hgc : globApplyCompletes env glob = true)
    (hgu : env.globUpdateErr glob = none) :
    (handleLocalization env loc).updated =
        some (RemoveString loc.finalizers appFinalizer) ∧
      (handleGlobalization env glob).updated =
        some (RemoveString glob.finalizers appFinalizer) :=
  ⟨(handleLoc_removes_finalizer env loc hlt hlc hlu).1,
    (handleGlob_removes_finalizer env glob hgt hgc hgu).1⟩

/-- Closed instantiation of the amended C3 theorem. -/
theorem handle_deletion_removes_finalizer_inst :
    (handleLocalization envBase loc3).updated =
        some (RemoveString loc3.finalizers appFinalizer) ∧
      (handleGlobalization envBase glob3).updated =
        some (RemoveString glob3.finalizers appFinalizer) :=
  handle_deletion_removes_finalizer envBase loc3 glob3 ⟨100⟩ ⟨100⟩ rfl rfl rfl rfl rfl rfl

/-- C4: a declaration pending deletion is still present in the index and
matched by the selector, yet contributes zero OverrideConfig entries: the
result of `getOverrides` is unchanged when every pending-deletion declaration
is removed from the index outright. -/
theorem getOverrides_deleted_excluded (env : Env) (ns : String) (feed : Feed)
    (uid : String) (g : Globalization) (lo : Localization)
    (hres : resolveTargetUID env feed = .ok uid) :
    (g ∈ env.globs → hasLabel g.labels uid feed.kind = true →
      g.deletionTimestamp.isSome = true → g ∈ matchedGlobs env uid feed.kind) ∧
    (lo ∈ env.locs → lo.ns = ns → hasLabel lo.labels uid feed.kind = true →
      lo.deletionTimestamp.isSome = true → lo ∈ matchedLocs env ns uid feed.kind) ∧
    getOverrides env ns feed =
      getOverrides
        { env with
          globs := env.globs.filter fun x => x.deletionTimestamp.isNone
          locs := env.locs.filter fun x => x.deletionTimestamp.isNone } ns feed := by
  refine ⟨?_, ?_, ?_⟩
  · intro hg hlbl _
    unfold matchedGlobs
    exact List.mem_filter.mpr ⟨hg, hlbl⟩
  · intro hl hns hlbl _
    unfold matchedLocs
    exact List.mem_filter.mpr ⟨List.mem_filter.mpr ⟨hl, by simp [hns]⟩, hlbl⟩
  · have hresF : resolveTargetUID
        { env with
          globs := env.globs.filter fun x => x.deletionTimestamp.isNone
          locs := env.locs.filter fun x => x.deletionTimestamp.isNone } feed = .ok uid := hres
    simp only [getOverrides, hres, hresF]
    rw [overridesForUID_eq, overridesForUID_eq]
    have hG : activeGlobs
        { env with
          globs := env.globs.filter fun x => x.deletionTimestamp.isNone
          locs := env.locs.filter fun x => x.deletionTimestamp.isNone } uid feed.kind =
        activeGlobs env uid feed.kind := by
      show ((env.globs.filter fun x => x.deletionTimestamp.isNone).filter
            fun x => hasLabel x.labels uid feed.kind).filter
            (fun x => x.deletionTimestamp.isNone) =
          (env.globs.filter fun x => hasLabel x.labels uid feed.kind).filter
            fun x => x.deletionTimestamp.isNone
      rw [filter_swap (fun x => x.deletionTimestamp.isNone)
          (fun x => hasLabel x.labels uid feed.kind) env.globs, filter_idem]
    have hL : activeLocs
        { env with
          globs := env.globs.filter fun x => x.deletionTimestamp.isNone
          locs := env.locs.filter fun x => x.deletionTimestamp.isNone } ns uid feed.kind =
        activeLocs env ns uid feed.kind := by
      show (((env.locs.filter fun x => x.deletionTimestamp.isNone).filter
            fun x => decide (x.ns = ns)).filter
            fun x => hasLabel x.labels uid feed.kind).filter
            (fun x => x.deletionTimestamp.isNone) =
          ((env.locs.filter fun x => decide (x.ns = ns)).filter
            fun x => hasLabel x.labels uid feed.kind).filter
            fun x => x.deletionTimestamp.isNone
      rw [filter_swap (fun x => x.deletionTimestamp.isNone)
          (fun x => decide (x.ns = ns)) env.locs,
        filter_swap (fun x => x.deletionTimestamp.isNone)
          (fun x => hasLabel x.labels uid feed.kind)
          (env.locs.filter fun x => decide (x.ns = ns)), filter_idem]
    rw [hG, hL]

/-- Closed instantiation of the C4 theorem on `env4`. -/
theorem getOverrides_deleted_excluded_inst :
    gDel ∈ matchedGlobs env4 "uid-1" feedW.kind ∧
      lDel ∈ matchedLocs env4 "cns" "uid-1" feedW.kind ∧
      getOverrides env4 "cns" feedW =
        getOverrides
          { env4 with
            globs := env4.globs.filter fun x => x.deletionTimestamp.isNone
            locs := env4.locs.filter fun x => x.deletionTimestamp.isNone } "cns" feedW := by
  have h := getOverrides_deleted_excluded env4 "cns" feedW "uid-1" gDel lDel rfl
  exact ⟨h.1 (by decide) rfl rfl, h.2.1 (by decide) rfl rfl rfl, h.2.2⟩

/-- C5: for a Description with a supported deployer mode, every entry is
processed independently of the other entries' failures — the final payload
list is the per-entry result map (Helm mode) or per-entry update (generic
mode) — and the returned value is the `NewAggregate` of exactly the per-entry
errors in order (nil when no entry failed, by `newAggregate`). -/
theorem applyOverrides_failure_isolation (env : Env) (desc : Description) :
    (desc.deployer = helmDeployer →
      (ApplyOverridesToDescription env desc).2 =
          newAggregate (desc.charts.filterMap fun ref => errPart (helmEntry env desc.ns ref)) ∧
        (ApplyOverridesToDescription env desc).1.raw =
          desc.charts.map fun ref => (helmEntry env desc.ns ref).toOption) ∧
    (desc.deployer = genericDeployer →
      (ApplyOverridesToDescription env desc).2 =
          newAggregate (desc.raw.filterMap fun x => errPart (genericEntry env desc.ns x)) ∧
        (ApplyOverridesToDescription env desc).1.raw =
          combine (genericEntry env desc.ns) desc.raw desc.raw) := by
  constructor
  · intro h
    rw [ApplyOverridesToDescription_helm env desc h]
    exact ⟨rfl, rfl⟩
  · intro h
    rw [ApplyOverridesToDescription_generic env desc h]
    exact ⟨rfl, rfl⟩

/-- Closed instantiation of the C5 theorem: three chart entries with the
middle one unresolvable. -/
theorem applyOverrides_failure_isolation_inst :
    (ApplyOverridesToDescription envBase desc5).2 =
        newAggregate (desc5.charts.filterMap fun ref => errPart (helmEntry envBase desc5.ns ref)) ∧
      (ApplyOverridesToDescription envBase desc5).1.raw =
        desc5.charts.map fun ref => (helmEntry envBase desc5.ns ref).toOption :=
  (applyOverrides_failure_isolation envBase desc5).1 rfl

/-- C6: for a non-chart Feed, zero matching manifests yields a NotFound error
carrying the Feed's kind and name; one or more matches resolve to the first
match's UID as the lookup key. -/
theorem getOverrides_manifest_lookup (env : Env) (ns : String) (feed : Feed)
    (h : feed.kind ≠ chartKindStr) :
    (ListManifestsBySelector env.manifests feed = [] →
      getOverrides env ns feed = .error (.notFound feed.kind feed.name)) ∧
    (∀ m ms, ListManifestsBySelector env.manifests feed = m :: ms →
      resolveTargetUID env feed = .ok m.uid ∧
      getOverrides env ns feed = .ok (overridesForUID env ns feed.kind m.uid)) := by
  constructor
  · intro hml
    simp only [getOverrides, resolveTargetUID, if_neg h, hml]
  · intro m ms hml
    have hres : resolveTargetUID env feed = .ok m.uid := by
      simp only [resolveTargetUID, if_neg h, hml]
    refine ⟨hres, ?_⟩
    simp only [getOverrides, hres]

/-- Closed instantiation of the C6 theorem on `env6`. -/
theorem getOverrides_manifest_lookup_inst :
    getOverrides env6 "cns" feedE = .error (.notFound feedE.kind feedE.name) ∧
      resolveTargetUID env6 feedD = .ok m1.uid ∧
      getOverrides env6 "cns" feedD =
        .ok (overridesForUID env6 "cns" feedD.kind m1.uid) := by
  refine ⟨(getOverrides_manifest_lookup env6 "cns" feedE (by decide)).1 rfl, ?_, ?_⟩
  · exact ((getOverrides_manifest_lookup env6 "cns" feedD (by decide)).2 m1 [] rfl).1
  · exact ((getOverrides_manifest_lookup env6 "cns" feedD (by decide)).2 m1 [] rfl).2

/-- C7: an ApplyNow declaration whose target artifact does not exist (chart
lookup not found, or manifest selector matching nothing) reconciles with a nil
error and no callback invocation, for both declaration kinds (given the
finalizer update, if any, succeeds). -/
theorem handle_applynow_notfound (env : Env) (loc : Localization)
    (glob : Globalization)
    (hlnow : loc.overridePolicy = applyNow)
    (hlnf : (loc.feed.kind = chartKindStr ∧
        chartGet env.charts loc.feed.ns loc.feed.name = none) ∨
      (loc.feed.kind ≠ chartKindStr ∧
        ListManifestsBySelector env.manifests loc.feed = []))
    (hlu : env.locUpdateErr loc = none)
    (hgnow : glob.overridePolicy = applyNow)
    (hgnf : (glob.feed.kind = chartKindStr ∧
        chartGet env.charts glob.feed.ns glob.feed.name = none) ∨
      (glob.feed.kind ≠ chartKindStr ∧
        ListManifestsBySelector env.manifests glob.feed = []))
    (hgu : env.globUpdateErr glob = none) :
    ((handleLocalization env loc).err = none ∧
      (handleLocalization env loc).chartCb = none ∧
      (handleLocalization env loc).manifestCb = none) ∧
    ((handleGlobalization env glob).err = none ∧
      (handleGlobalization env glob).chartCb = none ∧
      (handleGlobalization env glob).manifestCb = none) :=
  ⟨handleLoc_notFound env loc hlnow hlnf hlu,
    handleGlob_notFound env glob hgnow hgnf hgu⟩

/-- Closed instantiation of the C7 theorem. -/
theorem handle_applynow_notfound_inst :
    ((handleLocalization envBase loc7).err = none ∧
      (handleLocalization envBase loc7).chartCb = none ∧
      (handleLocalization envBase loc7).manifestCb = none) ∧
    ((handleGlobalization envBase glob7).err = none ∧
      (handleGlobalization envBase glob7).chartCb = none ∧
      (handleGlobalization envBase glob7).manifestCb = none) :=
  handle_applynow_notfound envBase loc7 glob7 rfl (Or.inl ⟨rfl, rfl⟩) rfl rfl
    (Or.inr ⟨by decide, rfl⟩) rfl

/-- C8: a target that resolves but matches no Globalization and no
Localization yields the empty OverrideConfig sequence with a nil error. -/
theorem getOverrides_no_match_empty (env : Env) (ns : String) (feed : Feed)
    (uid : String) (hres : resolveTargetUID env feed = .ok uid)
    (hg : matchedGlobs env uid feed.kind = [])
    (hl : matchedLocs env ns uid feed.kind = []) :
    getOverrides env ns feed = .ok [] := by
  simp only [getOverrides, hres]
  unfold overridesForUID
  rw [hg, hl]
  rfl

/-- Closed instantiation of the C8 theorem on `envBase`. -/
theorem getOverrides_no_match_empty_inst :
    getOverrides envBase "cns" feedW = .ok [] :=
  getOverrides_no_match_empty envBase "cns" feedW "uid-1" rfl rfl rfl

/-- C9: a Description whose deployer mode is neither the Helm deployer nor the
generic deployer is rejected whole, immediately: the Description is returned
unchanged (no entry processed) with the unsupported-deployer error. -/
theorem applyOverrides_unsupported_deployer (env : Env) (desc : Description)
    (h1 : desc.deployer ≠ helmDeployer) (h2 : desc.deployer ≠ genericDeployer) :
    ApplyOverridesToDescription env desc =
      (desc, some (.unsupportedDeployer desc.deployer)) := by
  unfold ApplyOverridesToDescription
  rw [if_neg h1, if_neg h2]

/-- Closed instantiation of the C9 theorem on `desc9`. -/
theorem applyOverrides_unsupported_deployer_inst :
    ApplyOverridesToDescription envBase desc9 =
      (desc9, some (.unsupportedDeployer desc9.deployer)) :=
  applyOverrides_unsupported_deployer envBase desc9 (by decide) (by decide)

/-- C10: a failed entry's final slot holds Go-nil in Helm mode (`Spec.Raw` is
reallocated to one slot per chart reference and the failed slot is never
written), and its original unpatched bytes in generic mode (the slot is only
overwritten on success). -/
theorem applyOverrides_failed_slot (env : Env) (desc : Description) :
    (desc.deployer = helmDeployer →
      (ApplyOverridesToDescription env desc).1.raw.length = desc.charts.length ∧
      ∀ (j : Nat) (ref : String × String) (e : Err), desc.charts[j]? = some ref →
        helmEntry env desc.ns ref = .error e →
        ((ApplyOverridesToDescription env desc).1.raw)[j]? = some none) ∧
    (desc.deployer = genericDeployer →
      ∀ (j : Nat) (x : Option String) (e : Err), desc.raw[j]? = some x →
        genericEntry env desc.ns x = .error e →
        ((ApplyOverridesToDescription env desc).1.raw)[j]? = some x) := by
  constructor
  · intro h
    rw [ApplyOverridesToDescription_helm env desc h]
    constructor
    · simp
    · intro j ref e hj he
      simp [List.getElem?_map, hj, he, Except.toOption]
  · intro h
    rw [ApplyOverridesToDescription_generic env desc h]
    intro j x e hj he
    dsimp only
    have step := combine_self_get (genericEntry env desc.ns) desc.raw j x hj
    rw [step, he]

/-- Closed instantiation of the C10 theorem: a Helm entry failing resolution
leaves a nil slot; a generic entry failing unmarshal keeps its input bytes. -/
theorem applyOverrides_failed_slot_inst :
    ((ApplyOverridesToDescription envBase desc10h).1.raw)[0]? = some none ∧
      ((ApplyOverridesToDescription envBase desc10g).1.raw)[0]? = some (some "junk") :=
  ⟨((applyOverrides_failed_slot envBase desc10h).1 rfl).2 0 ("default", "missing")
      (.notFound "helmcharts" "missing") rfl rfl,
    (applyOverrides_failed_slot envBase desc10g).2 rfl 0 (some "junk")
      .unmarshalFailure rfl rfl⟩

end Clusternet
